import Mathlib

/-!
Verification of the OpenAPI/Swagger parsing core of this repository
(`core/src/parser/openapi_parser.py`).  The decoded document is embedded
as the inductive `JVal`; the methods of `SwaggerProcessor` are translated
into fuel-indexed total functions (`Nat` fuel models the unbounded
recursion of `__parse_ref`, which diverges on cyclic documents, and of
the breadth-first queue loop of `__find_key_in_dict`).  Python's in-place
mutation of `self.swagger_json_data` is modelled by threading the
document value through every call and writing updated subtrees back at
their lookup path.
-/

/-- A decoded JSON/YAML value: the shape of the documents the parser walks. -/
inductive JVal where
  | str (s : String)
  | num (n : Int)
  | bool (b : Bool)
  | null
  | arr (xs : List JVal)
  | obj (fs : List (String × JVal))
deriving Repr

/-- Errors of the embedded parser: Python KeyError/IndexError, TypeError or
AttributeError, AssertionError, and exhaustion of the modelling fuel. -/
inductive PErr where
  | keyError (msg : String)
  | typeError
  | assertError (msg : String)
  | outOfFuel
deriving DecidableEq, Repr

/-- First value stored under a key in an association list (Python dicts have
unique keys, so first = only). -/
def lookupField : List (String × JVal) → String → Option JVal
  | [], _ => none
  | (k, v) :: rest, key => if k = key then some v else lookupField rest key

/-- Replace the value stored under a key, keeping its position (Python dict
item assignment on an existing key). -/
def setField : List (String × JVal) → String → JVal → List (String × JVal)
  | [], _, _ => []
  | (k, v) :: rest, key, w => if k = key then (k, w) :: rest else (k, v) :: setField rest key w

/-- Remove a key (Python `del d[k]`). -/
def eraseField : List (String × JVal) → String → List (String × JVal)
  | [], _ => []
  | (k, v) :: rest, key => if k = key then rest else (k, v) :: eraseField rest key

/-- Python `d.get(k)`: `none` both when the key is absent and when the stored
value is `null` (both come back as Python `None`).  `.get` on a non-mapping
(an `AttributeError` in Python) is modelled as absent; the parser only calls
`.get` on decoded mappings. -/
def pyGet (v : JVal) (key : String) : Option JVal :=
  match v with
  | .obj fs =>
    match lookupField fs key with
    | some .null => none
    | o => o
  | _ => none

/-- Python `d[k]` subscript: `KeyError` when absent, `TypeError` when the
subject is not a mapping. -/
def pyIndex (v : JVal) (key : String) : Except PErr JVal :=
  match v with
  | .obj fs =>
    match lookupField fs key with
    | some u => .ok u
    | none => .error (.keyError key)
  | _ => .error .typeError

/-- Python `d[k] = w`: replace in place if present, append otherwise. -/
def pySet (v : JVal) (key : String) (w : JVal) : JVal :=
  match v with
  | .obj fs =>
    if (lookupField fs key).isSome then .obj (setField fs key w)
    else .obj (fs ++ [(key, w)])
  | other => other

/-- Read the subtree stored at a key path. -/
def getAt : JVal → List String → Option JVal
  | v, [] => some v
  | v, k :: ks =>
    match v with
    | .obj fs =>
      match lookupField fs k with
      | some u => getAt u ks
      | none => none
    | _ => none

/-- Functionally overwrite the subtree stored at a key path (no-op when the
path does not exist); this models Python's aliasing: the subtree returned by
the `#/...` lookup is the same object as the one inside the document, so
mutating it mutates the document. -/
def setAt : JVal → List String → JVal → JVal
  | _, [], w => w
  | .obj fs, k :: ks, w =>
    match lookupField fs k with
    | some u => .obj (setField fs k (setAt u ks w))
    | none => .obj fs
  | v, _ :: _, _ => v

/-- Python truthiness of a decoded value. -/
def isTruthy : JVal → Bool
  | .str s => decide (s ≠ "")
  | .num n => decide (n ≠ 0)
  | .bool b => b
  | .null => false
  | .arr xs => !xs.isEmpty
  | .obj fs => !fs.isEmpty

/-- Truthiness of a `d.get(k)` result (absent = Python `None` = falsy). -/
def truthyOpt : Option JVal → Bool
  | some v => isTruthy v
  | none => false

/-- Python `is not None` on a found value: a found JSON `null` is Python
`None` as well. -/
def nonNull : Option JVal → Option JVal
  | some .null => none
  | o => o

/-- Python `v == "lit"` for a string literal (structural equality; any
non-string value compares unequal). -/
def jIsStr (v : JVal) (s : String) : Bool :=
  match v with
  | .str s' => decide (s' = s)
  | _ => false

/-- Python `d.get(k) == "lit"` (`None == "lit"` is `False`). -/
def jEqStr (v : Option JVal) (s : String) : Bool :=
  match v with
  | some w => jIsStr w s
  | none => false

/-- A value the queue loop descends into (`isinstance(v, (dict, list))`). -/
def isContainer : JVal → Bool
  | .obj _ => true
  | .arr _ => true
  | _ => false

/-- The string must actually be a string before `.split` (Python raises
`AttributeError` otherwise). -/
def asStr : JVal → Except PErr String
  | .str s => .ok s
  | _ => .error .typeError

/-- Python `s.split("/")` specialised to the one separator the parser uses. -/
def splitOnSlashAux : List Char → List Char → List String
  | [], acc => [String.mk acc.reverse]
  | c :: cs, acc =>
    if c = '/' then String.mk acc.reverse :: splitOnSlashAux cs []
    else splitOnSlashAux cs (c :: acc)

/-- Python `ref_path.split("/")`. -/
def splitSlash (s : String) : List String :=
  splitOnSlashAux s.data []

/-- Python `len` (defined on strings, sequences and mappings only). -/
def pyLen : JVal → Option Nat
  | .str s => some s.length
  | .arr xs => some xs.length
  | .obj fs => some fs.length
  | _ => none

/-! ## `SwaggerProcessor.__find_key_in_dict`: breadth-first key search -/

/-- `found = v; break` overwrites whatever was found before. -/
def updFound : Option JVal → Option JVal → Option JVal
  | some v, _ => some v
  | none, old => old

/-- One dict visit of the queue loop: walk the items in order; on the first
item whose key matches, report its value and stop (later siblings are not
enqueued); otherwise enqueue every dict/list value. -/
def scanFields (target : String) : List (String × JVal) → Option JVal × List JVal
  | [] => (none, [])
  | (k, v) :: rest =>
    if k = target then (some v, [])
    else
      let r := scanFields target rest
      (r.1, (if isContainer v then [v] else []) ++ r.2)

/-- One list visit of the queue loop: enqueue the dict/list items. -/
def scanList (xs : List JVal) : List JVal :=
  xs.filter isContainer

/-- The `while queue:` loop of `__find_key_in_dict`.  Fuel counts loop
iterations; `none` means the fuel ran out (the Python loop always
terminates, so any sufficiently large fuel yields `some`). -/
def bfsFind (target : String) : Nat → Option JVal → List JVal → Option (Option JVal)
  | 0, _, _ => none
  | _ + 1, found, [] => some found
  | fuel + 1, found, cur :: rest =>
    match cur with
    | .obj fs =>
      bfsFind target fuel (updFound (scanFields target fs).1 found)
        (rest ++ (scanFields target fs).2)
    | .arr xs => bfsFind target fuel found (rest ++ scanList xs)
    | _ => bfsFind target fuel found rest

/-- `SwaggerProcessor.__find_key_in_dict(data_dict, target_key)` for a
non-`None` argument. -/
def findKeyInDict (fuel : Nat) (data : JVal) (target : String) : Option (Option JVal) :=
  bfsFind target fuel none [data]

/-- `__find_key_in_dict` as used inside the parser, with fuel exhaustion
surfaced as an error. -/
def findKeyE (fuel : Nat) (data : JVal) (target : String) : Except PErr (Option JVal) :=
  match findKeyInDict fuel data target with
  | none => .error .outOfFuel
  | some r => .ok r

/-! ## Occurrence predicates (specification side)

`OccursWith t w v`: somewhere inside `v` (at any depth, through mappings and
sequences) there is a mapping entry with key `t` and value `w`.
`OccursKey t v`: some such entry exists, whatever its value. -/

inductive OccursWith (t : String) (w : JVal) : JVal → Prop where
  | head {fs : List (String × JVal)} : (t, w) ∈ fs → OccursWith t w (.obj fs)
  | inObj {fs : List (String × JVal)} {k : String} {v : JVal} :
      (k, v) ∈ fs → OccursWith t w v → OccursWith t w (.obj fs)
  | inArr {xs : List JVal} {v : JVal} : v ∈ xs → OccursWith t w v → OccursWith t w (.arr xs)

inductive OccursKey (t : String) : JVal → Prop where
  | head {fs : List (String × JVal)} {w : JVal} : (t, w) ∈ fs → OccursKey t (.obj fs)
  | inObj {fs : List (String × JVal)} {k : String} {v : JVal} :
      (k, v) ∈ fs → OccursKey t v → OccursKey t (.obj fs)
  | inArr {xs : List JVal} {v : JVal} : v ∈ xs → OccursKey t v → OccursKey t (.arr xs)

example : findKeyInDict 9 (.obj [("a", .obj [("x", .str "u")]), ("x", .str "v")]) "x"
    = some (some (.str "u")) := rfl

example : findKeyInDict 9 (.obj [("a", .str "b")]) "x" = some none := rfl

/-! ## Output model (the pydantic models of the source)

Fields whose pydantic type is `Optional[...]`/`str`/`Dict` keep the raw
decoded value (`JVal` or `Option JVal`); pydantic's runtime coercion and
validation of those payloads is not modelled. -/

/-- `class Operation(Enum)`: the 8 HTTP verbs. -/
inductive Operation where
  | get | put | post | delete | options | head | patch | trace
deriving DecidableEq, Repr

/-- The `.value` of each enum member. -/
def Operation.val : Operation → String
  | .get => "GET"
  | .put => "PUT"
  | .post => "POST"
  | .delete => "DELETE"
  | .options => "OPTIONS"
  | .head => "HEAD"
  | .patch => "PATCH"
  | .trace => "TRACE"

/-- Python `Operation[method]`: enum lookup by member name; `none` models the
`KeyError` raised on an unrecognized name. -/
def operationOfName : String → Option Operation
  | "get" => some .get
  | "put" => some .put
  | "post" => some .post
  | "delete" => some .delete
  | "options" => some .options
  | "head" => some .head
  | "patch" => some .patch
  | "trace" => some .trace
  | _ => none

/-- `class ArrayItem(BaseModel)`. -/
structure ArrayItem where
  type : JVal
  enum_items : Option JVal
  default : Option JVal
deriving Repr

/-- `class Parameter(BaseModel)` (core variant). -/
structure Parameter where
  name : Option JVal
  param_location : Option JVal
  description : Option JVal
  type : JVal
  maximum : Option JVal
  mimimum : Option JVal
  format : Option JVal
  items : Option ArrayItem
  required : JVal
  pattern : Option JVal
  max_len : Option JVal
deriving Repr

/-- `class RequestBody(BaseModel)`. -/
structure RequestBody where
  description : Option JVal
  data_schema : JVal
  required : JVal
deriving Repr

/-- `class ResponseSchema(BaseModel)`. -/
structure ResponseSchema where
  type : Option JVal
  items : Option JVal
deriving Repr

/-- `class Response(BaseModel)`; the status code is kept as the mapping key. -/
structure Response where
  code : String
  description : Option JVal
  return_schema : Option ResponseSchema
deriving Repr

/-- `class Method(BaseModel)`. -/
structure Method where
  url : String
  type : Operation
  summary : Option JVal
  description : Option JVal
  input_formats : JVal
  output_formats : JVal
  responses : Option (List Response)
  parameters : Option (List Parameter)
  request_body : Option RequestBody
deriving Repr

/-! ## `SwaggerProcessor.__parse_ref` -/

/-- `self.schema_useless_keys` of `SwaggerProcessor.__init__`. -/
def schemaUselessKeys : List String := ["xml"]

/-- The `for ukey in self.schema_useless_keys: if ukey in schema: del
schema[ukey]` loop: keys are deleted from the top level of the looked-up
subtree only. -/
def deleteUselessKeysTop (schema : JVal) : JVal :=
  schemaUselessKeys.foldl
    (fun s ukey =>
      match s with
      | .obj fs => .obj (eraseField fs ukey)
      | other => other)
    schema

/-- The second lookup leg of `__parse_ref`:
`schema = schema_location[ref_parts[1]][schema_name]`, taken when the first
`.get` came back absent or falsy.  Returns the subtree together with its key
path inside the document. -/
def refLookupElse (schemaLocation : JVal) (refParts : List String)
    (schemaName part0 : String) : Except PErr (JVal × List String) :=
  match refParts[1]? with
  | some part1 => do
    let loc2 ← pyIndex schemaLocation part1
    let s ← pyIndex loc2 schemaName
    .ok (s, [part0, part1, schemaName])
  | none => .error (.keyError "list index out of range")

/-- The lookup prefix of `__parse_ref`: split path segments, index the
container named by the first segment, then find `schema_name` either directly
(`if schema_location.get(schema_name):` — a truthiness test, so a present but
falsy entry also falls through to the else leg) or one container deeper. -/
def refLookup (doc : JVal) (refParts : List String) : Except PErr (JVal × List String) :=
  match refParts.getLast?, refParts.head? with
  | some schemaName, some part0 => do
    let schemaLocation ← pyIndex doc part0
    match pyGet schemaLocation schemaName with
    | some v =>
      if isTruthy v then .ok (v, [part0, schemaName])
      else refLookupElse schemaLocation refParts schemaName part0
    | none => refLookupElse schemaLocation refParts schemaName part0
  | _, _ => .error (.keyError "list index out of range")

mutual

/-- `SwaggerProcessor.__parse_ref(ref_path)`.  Returns the resolved subtree
together with the updated document (Python mutates `self.swagger_json_data`
in place; deletions and substitutions are written back at the lookup path).
When the subtree was replaced by a nested resolution (`schema =
self.__parse_ref(any_ref)`), the later `schema["items"] = ...` assignment
mutates the replacement's own definition slot in Python; the model keeps that
mutation local to the returned value. -/
def parseRef : Nat → JVal → String → Except PErr (JVal × JVal)
  | 0, _, _ => .error .outOfFuel
  | fuel + 1, doc, refPath => do
    let refParts := (splitSlash refPath).drop 1
    let (schemaRaw, path) ← refLookup doc refParts
    let schema1 := deleteUselessKeysTop schemaRaw
    let doc1 := setAt doc path schema1
    match pyGet schema1 "properties" with
    | none => do
      let anyRef ← findKeyE fuel schema1 "$ref"
      let (schema2, doc2, replaced) ←
        match anyRef with
        | some rv =>
          if isTruthy rv && !jEqStr (pyGet schema1 "type") "array" then do
            let rs ← asStr rv
            let (s2, d2) ← parseRef fuel doc1 rs
            (.ok (s2, d2, true) : Except PErr (JVal × JVal × Bool))
          else .ok (schema1, doc1, false)
        | none => .ok (schema1, doc1, false)
      if jEqStr (pyGet schema2 "type") "array" then do
        let tempRef ← findKeyE fuel schema2 "$ref"
        match tempRef with
        | some tv =>
          if isTruthy tv then do
            let ts ← asStr tv
            let (item, doc3) ← parseRef fuel doc2 ts
            let schema3 := pySet schema2 "items" item
            .ok (schema3, if replaced then doc3 else setAt doc3 path schema3)
          else .ok (schema2, doc2)
        | none => .ok (schema2, doc2)
      else .ok (schema2, doc2)
    | some props =>
      match props with
      | .obj pfs => do
        let (pfs2, docP) ← parseProps fuel (path ++ ["properties"]) doc1 pfs
        let schema3 := pySet schema1 "properties" (.obj pfs2)
        .ok (schema3, setAt docP path schema3)
      | _ => .error .typeError

/-- The `for k, v in properties.items():` loop of `__parse_ref`.  A property
holding a truthy pointer is replaced by its resolution; an array-typed
property whose `items` holds a truthy pointer is replaced *wholesale* by the
resolution of that pointer (`properties[k] = item` in the source — note the
assignment target is the property, not its `items` entry); every other
property passes through untouched.  Substitutions are written back into the
document at `propsPath ++ [k]` (Python mutates the aliased dict in place). -/
def parseProps : Nat → List String → JVal → List (String × JVal) →
    Except PErr (List (String × JVal) × JVal)
  | _, _, doc, [] => .ok ([], doc)
  | 0, _, _, _ :: _ => .error .outOfFuel
  | fuel + 1, propsPath, doc, (k, v) :: rest =>
    match pyGet v "$ref" with
    | some rv =>
      if isTruthy rv then do
        let rs ← asStr rv
        let (item, d2) ← parseRef fuel doc rs
        let (rest2, d3) ← parseProps fuel propsPath (setAt d2 (propsPath ++ [k]) item) rest
        .ok ((k, item) :: rest2, d3)
      else
        if jEqStr (pyGet v "type") "array" then do
          let items ← pyIndex v "items"
          match pyGet items "$ref" with
          | some irv =>
            if isTruthy irv then do
              let irs ← asStr irv
              let (item, d2) ← parseRef fuel doc irs
              let (rest2, d3) ← parseProps fuel propsPath (setAt d2 (propsPath ++ [k]) item) rest
              .ok ((k, item) :: rest2, d3)
            else do
              let (rest2, d2) ← parseProps fuel propsPath doc rest
              .ok ((k, v) :: rest2, d2)
          | none => do
            let (rest2, d2) ← parseProps fuel propsPath doc rest
            .ok ((k, v) :: rest2, d2)
        else do
          let (rest2, d2) ← parseProps fuel propsPath doc rest
          .ok ((k, v) :: rest2, d2)
    | none =>
      if jEqStr (pyGet v "type") "array" then do
        let items ← pyIndex v "items"
        match pyGet items "$ref" with
        | some irv =>
          if isTruthy irv then do
            let irs ← asStr irv
            let (item, d2) ← parseRef fuel doc irs
            let (rest2, d3) ← parseProps fuel propsPath (setAt d2 (propsPath ++ [k]) item) rest
            .ok ((k, item) :: rest2, d3)
          else do
            let (rest2, d2) ← parseProps fuel propsPath doc rest
            .ok ((k, v) :: rest2, d2)
        | none => do
          let (rest2, d2) ← parseProps fuel propsPath doc rest
          .ok ((k, v) :: rest2, d2)
      else do
        let (rest2, d2) ← parseProps fuel propsPath doc rest
        .ok ((k, v) :: rest2, d2)

end

/-! ## `SwaggerProcessor.__parse_parameters` -/

/-- The body of one iteration of the `for param in params_data:` loop. -/
def parseOneParam (fuel : Nat) (doc : JVal) (param0 : JVal) : Except PErr (Parameter × JVal) := do
  -- param_schema = param.get("schema"); solo '$ref' param handling
  let (param, d1) ←
    match pyGet param0 "schema" with
    | some _ => (.ok (param0, doc) : Except PErr (JVal × JVal))
    | none =>
      match pyGet param0 "$ref" with
      | some rv =>
        if isTruthy rv then do
          let rs ← asStr rv
          parseRef fuel doc rs
        else .ok (param0, doc)
      | none => .ok (param0, doc)
  -- param_type = param.get("type"), falling back to param["schema"].get("type")
  let ptypeA : Option JVal :=
    match pyGet param "type" with
    | some t => some t
    | none =>
      match pyGet param "schema" with
      | some sch => pyGet sch "type"
      | none => none
  -- if still None: param_type = self.__parse_ref(param["schema"]["$ref"])
  let (ptype, d2) ←
    match ptypeA with
    | some t => (.ok (t, d1) : Except PErr (JVal × JVal))
    | none => do
      let sch ← pyIndex param "schema"
      let rv ← pyIndex sch "$ref"
      let rs ← asStr rv
      parseRef fuel d1 rs
  -- array items
  let (arrayItem, d3) ←
    if jIsStr ptype "array" then do
      let arrItems1 ←
        match pyGet param "items" with
        | some it => (.ok (some it) : Except PErr (Option JVal))
        | none => do
          let sch ← pyIndex param "schema"
          .ok (pyGet sch "items")
      match arrItems1 with
      | none => .error (.assertError "Items must be???")
      | some arrItems => do
        let (itType, dA) ←
          match pyGet arrItems "type" with
          | some t => (.ok (t, d2) : Except PErr (JVal × JVal))
          | none =>
            match pyGet arrItems "$ref" with
            | some rv => do
              let rs ← asStr rv
              parseRef fuel d2 rs
            | none => .error .typeError
        (.ok (some ({ type := itType,
                      enum_items := pyGet arrItems "enum",
                      default := pyGet arrItems "default" } : ArrayItem), dA) :
          Except PErr (Option ArrayItem × JVal))
    else .ok (none, d2)
  -- pattern / format / maxLength with truthy-schema fallback
  let pattern :=
    match pyGet param "pattern" with
    | some p => some p
    | none =>
      match pyGet param "schema" with
      | some sch => if isTruthy sch then pyGet sch "pattern" else none
      | none => none
  let fmt :=
    match pyGet param "format" with
    | some p => some p
    | none =>
      match pyGet param "schema" with
      | some sch => if isTruthy sch then pyGet sch "format" else none
      | none => none
  let maxLen :=
    match pyGet param "maxLength" with
    | some p => some p
    | none =>
      match pyGet param "schema" with
      | some sch => if isTruthy sch then pyGet sch "maxLength" else none
      | none => none
  -- `type="$ref" if param_type is None else param_type`: by this point the
  -- source's param_type is never None (the third branch either raised or
  -- produced a resolved schema), so the "$ref" fallback is dead code.
  .ok ({ name := pyGet param "name",
         param_location := pyGet param "in",
         description := pyGet param "description",
         type := ptype,
         maximum := pyGet param "maximum",
         mimimum := pyGet param "mimimum",
         format := fmt,
         items := arrayItem,
         required := (pyGet param "required").getD (.bool false),
         pattern := pattern,
         max_len := maxLen }, d3)

/-- The `for param in params_data:` loop of `__parse_parameters`. -/
def parseParamsList (fuel : Nat) : JVal → List JVal → Except PErr (List Parameter × JVal)
  | doc, [] => .ok ([], doc)
  | doc, param :: rest => do
    let (p, d1) ← parseOneParam fuel doc param
    let (ps, d2) ← parseParamsList fuel d1 rest
    .ok (p :: ps, d2)

/-- `SwaggerProcessor.__parse_parameters(params_data)`: iterating requires a
decoded sequence. -/
def parseParameters (fuel : Nat) (doc : JVal) (paramsData : JVal) :
    Except PErr (List Parameter × JVal) :=
  match paramsData with
  | .arr xs => parseParamsList fuel doc xs
  | _ => .error .typeError

/-! ## `SwaggerProcessor.__parse_responses` -/

/-- The `for http_code, response_data in responses_data.items():` loop. -/
def parseResponsesList (fuel : Nat) : JVal → List (String × JVal) →
    Except PErr (List Response × JVal)
  | doc, [] => .ok ([], doc)
  | doc, (httpCode, responseData) :: rest => do
    let ref ← findKeyE fuel responseData "$ref"
    let outType ← findKeyE fuel responseData "type"
    -- parsed_ref = self.__parse_ref(ref) if ref is not None else None
    let (parsedRef, d1) ←
      match nonNull ref with
      | some rv => do
        let rs ← asStr rv
        let (p, d) ← parseRef fuel doc rs
        (.ok (some p, d) : Except PErr (Option JVal × JVal))
      | none => .ok (none, doc)
    -- one extra hop when the resolved schema still holds a truthy '$ref'
    let anyRef2 ←
      match parsedRef with
      | some p => findKeyE fuel p "$ref"
      | none => (.ok none : Except PErr (Option JVal))
    let (parsedRef2, d2) ←
      match anyRef2 with
      | some rv =>
        if isTruthy rv then do
          let rs ← asStr rv
          let (p, d) ← parseRef fuel d1 rs
          (.ok (some p, d) : Except PErr (Option JVal × JVal))
        else .ok (parsedRef, d1)
      | none => .ok (parsedRef, d1)
    let isArr := jEqStr outType "array"
    let outputSchema : ResponseSchema :=
      { type := if isArr then outType else parsedRef2,
        items := if isArr then parsedRef2 else none }
    let resp : Response :=
      { code := httpCode,
        description := pyGet responseData "description",
        return_schema := some outputSchema }
    let (rest2, d3) ← parseResponsesList fuel d2 rest
    .ok (resp :: rest2, d3)

/-- `SwaggerProcessor.__parse_responses(responses_data)`. -/
def parseResponses (fuel : Nat) (doc : JVal) (responsesData : JVal) :
    Except PErr (List Response × JVal) :=
  match responsesData with
  | .obj rs => parseResponsesList fuel doc rs
  | _ => .error .typeError

/-! ## `SwaggerProcessor.__parse_request_body` -/

/-- `SwaggerProcessor.__parse_request_body(request_body_data)`: the first
pointer found anywhere in the subtree is mandatory (`assert data_schema is
not None, "Update parser))"`); its resolution becomes `data_schema`. -/
def parseRequestBody (fuel : Nat) (doc : JVal) (requestBodyData : JVal) :
    Except PErr (RequestBody × JVal) := do
  let found ← findKeyE fuel requestBodyData "$ref"
  match nonNull found with
  | none => .error (.assertError "Update parser))")
  | some rv => do
    -- description, normalized to None when absent or of length <= 1
    let descOut ←
      match pyGet requestBodyData "description" with
      | none => (.ok none : Except PErr (Option JVal))
      | some dv =>
        match pyLen dv with
        | some n => .ok (if 1 < n then some dv else none)
        | none => .error .typeError
    let rs ← asStr rv
    let (ds, d1) ← parseRef fuel doc rs
    .ok ({ description := descOut,
           data_schema := ds,
           required := (pyGet requestBodyData "required").getD (.bool false) }, d1)

/-! ## `SwaggerProcessor.__parse_method` and the endpoint walk -/

/-- `params = self.__parse_parameters(method_params) if method_params is not
None else method_params`. -/
def parseMethodParams (fuel : Nat) (doc : JVal) (methodParams : Option JVal) :
    Except PErr (Option (List Parameter) × JVal) :=
  match methodParams with
  | some p => do
    let (ps, d) ← parseParameters fuel doc p
    .ok (some ps, d)
  | none => .ok (none, doc)

/-- `responses = self.__parse_responses(method_responses) if method_responses
is not None else method_responses`. -/
def parseMethodResponses (fuel : Nat) (doc : JVal) (methodResponses : Option JVal) :
    Except PErr (Option (List Response) × JVal) :=
  match methodResponses with
  | some r => do
    let (rs, d) ← parseResponses fuel doc r
    .ok (some rs, d)
  | none => .ok (none, doc)

/-- `request_body = self.__parse_request_body(method_request_body) if
method_request_body is not None else method_request_body`. -/
def parseMethodBody (fuel : Nat) (doc : JVal) (methodRequestBody : Option JVal) :
    Except PErr (Option RequestBody × JVal) :=
  match methodRequestBody with
  | some b => do
    let (rb, d) ← parseRequestBody fuel doc b
    .ok (some rb, d)
  | none => .ok (none, doc)

/-- Python `Operation[method]`: `KeyError` on an unrecognized member name. -/
def operationLookup (method : String) : Except PErr Operation :=
  match operationOfName method with
  | some o => .ok o
  | none => .error (.keyError method)

/-- `SwaggerProcessor.__parse_method(method, method_data, method_url)`:
`.ok (none, _)` models the silent skip of a deprecated operation; the
`Operation[method]` lookup raises `KeyError` on an unrecognized verb name
after the three sub-parses ran. -/
def parseMethod (fuel : Nat) (doc : JVal) (baseEndpointUrl : String) (method : String)
    (methodData : JVal) (methodUrl : String) : Except PErr (Option Method × JVal) := do
  if truthyOpt (pyGet methodData "deprecated") then
    .ok (none, doc)
  else do
    let (params, d1) ← parseMethodParams fuel doc (pyGet methodData "parameters")
    let (responses, d2) ← parseMethodResponses fuel d1 (pyGet methodData "responses")
    let (requestBody, d3) ← parseMethodBody fuel d2 (pyGet methodData "requestBody")
    let op ← operationLookup method
    .ok (some
      { url := baseEndpointUrl ++ methodUrl,
        type := op,
        summary := pyGet methodData "summary",
        description := pyGet methodData "description",
        input_formats := (pyGet methodData "consumes").getD (.arr []),
        output_formats := (pyGet methodData "produces").getD (.arr []),
        -- `None if (params is None or len(params) < 0) else params` — the
        -- comparison is `< 0`, kept verbatim (a length is never negative)
        parameters :=
          match params with
          | none => none
          | some ps => if ps.length < 0 then none else some ps,
        responses :=
          match responses with
          | none => none
          | some rs => if rs.length < 0 then none else some rs,
        request_body := requestBody }, d3)

/-- Inner loop of `__parse_endpoints`: `for method, method_data in
methods.items()`.  The source prints each parsed method; the model collects
the non-skipped ones in order. -/
def parseMethodsLoop (fuel : Nat) (baseEndpointUrl endpointUrl : String) :
    JVal → List (String × JVal) → Except PErr (List Method × JVal)
  | doc, [] => .ok ([], doc)
  | doc, (method, methodData) :: rest => do
    let (pm, d1) ← parseMethod fuel doc baseEndpointUrl method methodData endpointUrl
    let (ms, d2) ← parseMethodsLoop fuel baseEndpointUrl endpointUrl d1 rest
    match pm with
    | some m => .ok (m :: ms, d2)
    | none => .ok (ms, d2)

/-- Outer loop of `__parse_endpoints`: `for endpoint_url, methods in
endpoints_data.items()`. -/
def parseEndpointsLoop (fuel : Nat) (baseEndpointUrl : String) :
    JVal → List (String × JVal) → Except PErr (List Method × JVal)
  | doc, [] => .ok ([], doc)
  | doc, (endpointUrl, methods) :: rest =>
    match methods with
    | .obj ms => do
      let (l1, d1) ← parseMethodsLoop fuel baseEndpointUrl endpointUrl doc ms
      let (l2, d2) ← parseEndpointsLoop fuel baseEndpointUrl d1 rest
      .ok (l1 ++ l2, d2)
    | _ => .error .typeError

/-- `SwaggerProcessor.__parse_endpoints(endpoints_data)`. -/
def parseEndpoints (fuel : Nat) (doc : JVal) (baseEndpointUrl : String)
    (endpointsData : JVal) : Except PErr (List Method × JVal) :=
  match endpointsData with
  | .obj es => parseEndpointsLoop fuel baseEndpointUrl doc es
  | _ => .error .typeError

/-- The parsing part of `SwaggerProcessor.parse_swagger` (after the document
has been fetched and decoded): `endpoints = self.swagger_json_data.get("paths");
assert endpoints is not None, "0 endpoints! WTF???"`, then the endpoint walk.
The output catalog is the ordered list of parsed methods. -/
def parseSwagger (fuel : Nat) (doc : JVal) (baseEndpointUrl : String) :
    Except PErr (List Method × JVal) :=
  match pyGet doc "paths" with
  | none => .error (.assertError "0 endpoints! WTF???")
  | some endpoints => parseEndpoints fuel doc baseEndpointUrl endpoints

/-! ## Concrete documents used by counterexamples and witnesses -/

/-- An acyclic document in which the definition `Pet` nests a pointer inside
an inline object property's own properties. -/
def exDoc1 : JVal :=
  .obj [("definitions", .obj [
    ("X", .obj [("type", .str "string")]),
    ("Pet", .obj [
      ("type", .str "object"),
      ("properties", .obj [
        ("a", .obj [
          ("type", .str "object"),
          ("properties", .obj [("b", .obj [("$ref", .str "#/definitions/X")])])])])])])]

/-- What resolving `#/definitions/Pet` against `exDoc1` returns: the stored
definition verbatim, nested pointer included. -/
def exPet1 : JVal :=
  .obj [
    ("type", .str "object"),
    ("properties", .obj [
      ("a", .obj [
        ("type", .str "object"),
        ("properties", .obj [("b", .obj [("$ref", .str "#/definitions/X")])])])])]

/-- A document whose `Pet` definition carries a denylisted `xml` key nested
inside a property value, reached from a request body through a pointer. -/
def exDoc2 : JVal :=
  .obj [
    ("definitions", .obj [
      ("Pet", .obj [
        ("type", .str "object"),
        ("properties", .obj [
          ("name", .obj [
            ("type", .str "string"),
            ("xml", .obj [("attribute", .bool true)])])])])]),
    ("paths", .obj [
      ("/pets", .obj [
        ("post", .obj [
          ("requestBody", .obj [
            ("content", .obj [
              ("application/json", .obj [
                ("schema", .obj [("$ref", .str "#/definitions/Pet")])])])])])])])]

/-- The resolved `Pet` of `exDoc2`: the nested `xml` key survives. -/
def exPet2 : JVal :=
  .obj [
    ("type", .str "object"),
    ("properties", .obj [
      ("name", .obj [
        ("type", .str "string"),
        ("xml", .obj [("attribute", .bool true)])])])]

/-- The request body parsed from `exDoc2`. -/
def exBody2 : RequestBody :=
  { description := none, data_schema := exPet2, required := .bool false }

/-- The single catalog entry parsed from `exDoc2`. -/
def exMethod2 : Method :=
  { url := "http://b/pets", type := .post, summary := none, description := none,
    input_formats := .arr [], output_formats := .arr [],
    responses := none, parameters := none, request_body := some exBody2 }

/-- A document whose `Pet` definition carries a top-level denylisted `xml`
key. -/
def exDoc4 : JVal :=
  .obj [("definitions", .obj [
    ("Pet", .obj [
      ("xml", .obj [("name", .str "Pet")]),
      ("type", .str "object"),
      ("properties", .obj [])])])]

/-- `Pet` of `exDoc4` after resolution: the `xml` key is gone. -/
def exPet4 : JVal := .obj [("type", .str "object"), ("properties", .obj [])]

/-- `exDoc4` after one resolution of `#/definitions/Pet`: the `xml` key was
deleted from the document itself. -/
def exDoc4After : JVal := .obj [("definitions", .obj [("Pet", exPet4)])]

/-- A document whose top-level `paths` entry is an empty mapping. -/
def exDoc5 : JVal := .obj [("paths", .obj [])]

/-- A document whose `Pet` has an array-typed property whose `items` holds a
pointer to `Tag`. -/
def exDoc6 : JVal :=
  .obj [("definitions", .obj [
    ("Tag", .obj [("type", .str "string")]),
    ("Pet", .obj [
      ("type", .str "object"),
      ("properties", .obj [
        ("tags", .obj [
          ("type", .str "array"),
          ("items", .obj [("$ref", .str "#/definitions/Tag")])])])])])]

/-- `Pet` of `exDoc6` after resolution: the `tags` property was replaced
wholesale by the resolved `Tag` schema — its array wrapper is gone. -/
def exPet6 : JVal :=
  .obj [
    ("type", .str "object"),
    ("properties", .obj [("tags", .obj [("type", .str "string")])])]

/-- `exDoc6` after resolving `#/definitions/Pet` (the substitution is written
through to the document). -/
def exDoc6After : JVal :=
  .obj [("definitions", .obj [
    ("Tag", .obj [("type", .str "string")]),
    ("Pet", exPet6)])]

/-- A tiny document holding only the definition `T`. -/
def exDoc7 : JVal :=
  .obj [("definitions", .obj [("T", .obj [("type", .str "string")])])]

/-- The method parsed from an operation whose declared parameter list is
empty: its `parameters` field is `some []`, an empty container. -/
def exMethod8 : Method :=
  { url := "B/p", type := .get, summary := none, description := none,
    input_formats := .arr [], output_formats := .arr [],
    responses := none, parameters := some [], request_body := none }

/-- The input of the breadth-first-order counterexample: the target key
occurs at the top level (value "Y") and, under an earlier sibling, one level
deeper (value "X"). -/
def c3ex : JVal := .obj [("a", .obj [("$ref", .str "X")]), ("$ref", .str "Y")]

/-! ## Closed theorems: counterexamples and code-bug evaluations -/

/-- Claim C1 counterexample: resolving `#/definitions/Pet` against the
acyclic document `exDoc1` succeeds and returns a structure in which a
pointer key (`$ref`) still occurs, nested inside an inline object
property — refuting "no pointer key remains anywhere in the returned
structure, at any depth". -/
theorem c1_counterexample :
    parseRef 3 exDoc1 "#/definitions/Pet" = .ok (exPet1, exDoc1) ∧ OccursKey "$ref" exPet1 :=
  ⟨rfl,
    .inObj (List.Mem.tail _ (List.Mem.head _))
      (.inObj (List.Mem.head _)
        (.inObj (List.Mem.tail _ (List.Mem.head _))
          (.inObj (List.Mem.head _)
            (.head (List.Mem.head _)))))⟩

/-- Claim C2 counterexample: the output catalog parsed from `exDoc2`
embeds a request-body schema in which the denylisted key `xml` still
occurs (one level below the top of the resolved schema) — refuting "no
denylist key appears anywhere in any schema embedded in the output
catalog". -/
theorem c2_counterexample :
    parseSwagger 9 exDoc2 "http://b" = .ok ([exMethod2], exDoc2) ∧
      OccursKey "xml" exBody2.data_schema :=
  ⟨rfl,
    .inObj (List.Mem.tail _ (List.Mem.head _))
      (.inObj (List.Mem.head _)
        (.head (List.Mem.tail _ (List.Mem.head _))))⟩

/-- Claim C3 counterexample: on `c3ex` the target key `$ref` occurs at the
top level with value "Y" (the shallowest, left-most occurrence by the
claimed breadth-first order), yet the search returns the deeper value "X":
the loop keeps overwriting `found` and returns the last match, not the
first. -/
theorem c3_counterexample :
    findKeyInDict 9 c3ex "$ref" = some (some (.str "X")) ∧
      pyGet c3ex "$ref" = some (.str "Y") ∧ JVal.str "X" ≠ JVal.str "Y" :=
  ⟨rfl, rfl, by simp⟩

/-- Claim C4 counterexample: resolving `#/definitions/Pet` against `exDoc4`
returns a changed document — the denylisted `xml` entry was deleted from the
`Pet` definition inside the Document itself, refuting "the Document ... is
unchanged". -/
theorem c4_counterexample :
    parseRef 3 exDoc4 "#/definitions/Pet" = .ok (exPet4, exDoc4After) ∧
      (getAt exDoc4 ["definitions", "Pet", "xml"]).isSome = true ∧
      (getAt exDoc4After ["definitions", "Pet", "xml"]).isSome = false :=
  ⟨rfl, rfl, rfl⟩

/-- Claim C5 counterexample: a document whose `paths` entry is the empty
mapping parses successfully into an empty catalog — the
`assert endpoints is not None` only rejects an absent (or null) `paths`,
refuting "input paths object {} causes a fatal failure". -/
theorem c5_counterexample : parseSwagger 5 exDoc5 "http://b" = .ok ([], exDoc5) := rfl

/-- Claim C6: evaluating the resolver at the failing input.  The `tags`
property of `Pet` is an array schema whose `items` holds a pointer to `Tag`;
after resolution the property equals the resolved `Tag` schema itself
(`properties[k] = item` in the source), with no `items` key and no array
type left — the property does not remain an array schema. -/
theorem c6_theorem :
    parseRef 5 exDoc6 "#/definitions/Pet" = .ok (exPet6, exDoc6After) ∧
      getAt exPet6 ["properties", "tags", "type"] = some (.str "string") ∧
      getAt exPet6 ["properties", "tags", "items"] = none :=
  ⟨rfl, rfl, rfl⟩

/-- Claim C8: evaluating the endpoint extractor at the failing input.  An
operation declaring `parameters: []` yields a Method whose `parameters`
field is `some []` — an empty container, not the absent marker — because the
source guard reads `len(params) < 0` (never true) instead of `<= 0`. -/
theorem c8_theorem :
    parseMethod 5 (.obj []) "B" "get" (.obj [("parameters", .arr [])]) "/p" =
        .ok (some exMethod8, .obj []) ∧
      exMethod8.parameters = some [] :=
  ⟨rfl, rfl⟩

/-! ## Association-list and path lemmas -/

theorem lookupField_eraseField_ne (fs : List (String × JVal)) (key k : String)
    (hne : k ≠ key) : lookupField (eraseField fs key) k = lookupField fs k := by
  induction fs with
  | nil => rfl
  | cons hd tl ih =>
    obtain ⟨k', v'⟩ := hd
    by_cases h1 : k' = key
    · subst h1
      simp [eraseField, lookupField, Ne.symm hne]
    · by_cases h2 : k' = k
      · subst h2
        simp [eraseField, lookupField, h1]
      · simp [eraseField, lookupField, h1, h2, ih]

theorem eraseField_of_lookup_none (fs : List (String × JVal)) (key : String)
    (h : lookupField fs key = none) : eraseField fs key = fs := by
  induction fs with
  | nil => rfl
  | cons hd tl ih =>
    obtain ⟨k', v'⟩ := hd
    by_cases h1 : k' = key
    · subst h1
      simp [lookupField] at h
    · simp [lookupField, h1] at h
      simp [eraseField, h1, ih h]

theorem setField_self (fs : List (String × JVal)) (key : String) (w : JVal)
    (h : lookupField fs key = some w) : setField fs key w = fs := by
  induction fs with
  | nil => simp [lookupField] at h
  | cons hd tl ih =>
    obtain ⟨k', v'⟩ := hd
    by_cases h1 : k' = key
    · subst h1
      simp [lookupField] at h
      simp [setField, h]
    · simp [lookupField, h1] at h
      simp [setField, h1, ih h]

theorem lookupField_setField_self (fs : List (String × JVal)) (key : String) (u w : JVal)
    (h : lookupField fs key = some u) :
    lookupField (setField fs key w) key = some w := by
  induction fs with
  | nil => simp [lookupField] at h
  | cons hd tl ih =>
    obtain ⟨k', v'⟩ := hd
    by_cases h1 : k' = key
    · subst h1
      simp [setField, lookupField]
    · simp [lookupField, h1] at h
      simp [setField, lookupField, h1, ih h]

theorem setField_setField (fs : List (String × JVal)) (key : String) (a b : JVal) :
    setField (setField fs key a) key b = setField fs key b := by
  induction fs with
  | nil => rfl
  | cons hd tl ih =>
    obtain ⟨k', v'⟩ := hd
    by_cases h1 : k' = key
    · subst h1
      simp [setField]
    · simp [setField, h1, ih]

theorem setAt_getAt_self (p : List String) (d v : JVal) (h : getAt d p = some v) :
    setAt d p v = d := by
  induction p generalizing d with
  | nil =>
    simp [getAt] at h
    simp [setAt, h]
  | cons k ks ih =>
    match d with
    | .str s => simp [getAt] at h
    | .num n => simp [getAt] at h
    | .bool b => simp [getAt] at h
    | .null => simp [getAt] at h
    | .arr xs => simp [getAt] at h
    | .obj fs =>
      simp only [getAt] at h
      cases hl : lookupField fs k with
      | none => rw [hl] at h; simp at h
      | some u =>
        rw [hl] at h
        simp only [setAt, hl]
        rw [ih u h, setField_self fs k u hl]

theorem setAt_nil (d w : JVal) : setAt d [] w = w := by
  cases d <;> rfl

theorem setAt_setAt (p : List String) (d a b : JVal) :
    setAt (setAt d p a) p b = setAt d p b := by
  induction p generalizing d with
  | nil => simp [setAt_nil]
  | cons k ks ih =>
    match d with
    | .str s => rfl
    | .num n => rfl
    | .bool b' => rfl
    | .null => rfl
    | .arr xs => rfl
    | .obj fs =>
      cases hl : lookupField fs k with
      | none => simp [setAt, hl]
      | some u =>
        simp only [setAt, hl]
        rw [lookupField_setField_self fs k u (setAt u ks a) hl]
        simp only [setAt]
        rw [setField_setField, ih u]

/-! ## Invariants of the breadth-first key search -/

theorem scanFields_found_mem (t : String) (fs : List (String × JVal)) (w : JVal)
    (h : (scanFields t fs).1 = some w) : (t, w) ∈ fs := by
  induction fs with
  | nil => simp [scanFields] at h
  | cons hd tl ih =>
    obtain ⟨k, v⟩ := hd
    by_cases h1 : k = t
    · subst h1
      simp [scanFields] at h
      subst h
      exact List.Mem.head _
    · simp only [scanFields, if_neg h1] at h
      exact List.Mem.tail _ (ih h)

theorem scanFields_found_of_mem (t : String) (fs : List (String × JVal)) (w : JVal)
    (h : (t, w) ∈ fs) : ((scanFields t fs).1).isSome = true := by
  induction fs with
  | nil => simp at h
  | cons hd tl ih =>
    obtain ⟨k, v⟩ := hd
    by_cases h1 : k = t
    · subst h1
      simp [scanFields]
    · simp only [scanFields, if_neg h1]
      rcases List.mem_cons.mp h with h2 | h2
      · exact absurd (congrArg Prod.fst h2).symm h1
      · exact ih h2

theorem scanFields_enq_mem (t : String) (fs : List (String × JVal)) (x : JVal)
    (h : x ∈ (scanFields t fs).2) : ∃ k, (k, x) ∈ fs := by
  induction fs with
  | nil => simp [scanFields] at h
  | cons hd tl ih =>
    obtain ⟨k, v⟩ := hd
    by_cases h1 : k = t
    · subst h1
      simp [scanFields] at h
    · simp only [scanFields, if_neg h1, List.mem_append] at h
      rcases h with h2 | h2
      · by_cases hc : isContainer v = true
        · rw [if_pos hc] at h2
          simp only [List.mem_singleton] at h2
          subst h2
          exact ⟨k, List.Mem.head _⟩
        · rw [if_neg hc] at h2
          simp at h2
      · obtain ⟨k2, hk2⟩ := ih h2
        exact ⟨k2, List.Mem.tail _ hk2⟩

theorem scanFields_enq_of_mem (t : String) (fs : List (String × JVal)) (k : String) (v : JVal)
    (hnone : (scanFields t fs).1 = none) (hmem : (k, v) ∈ fs)
    (hcont : isContainer v = true) : v ∈ (scanFields t fs).2 := by
  induction fs with
  | nil => simp at hmem
  | cons hd tl ih =>
    obtain ⟨k', v'⟩ := hd
    by_cases h1 : k' = t
    · subst h1
      simp [scanFields] at hnone
    · simp only [scanFields, if_neg h1] at hnone ⊢
      rcases List.mem_cons.mp hmem with h2 | h2
      · injection h2 with hk hv
        subst hv
        rw [List.mem_append]
        left
        rw [if_pos hcont]
        exact List.Mem.head _
      · rw [List.mem_append]
        right
        exact ih hnone h2

theorem occursKey_isContainer (t : String) (v : JVal) (h : OccursKey t v) :
    isContainer v = true := by
  cases h <;> rfl

theorem occursKey_obj_iff (t : String) (fs : List (String × JVal)) :
    OccursKey t (.obj fs) ↔
      ((scanFields t fs).1).isSome = true ∨ ∃ x ∈ (scanFields t fs).2, OccursKey t x := by
  constructor
  · intro h
    cases hs : (scanFields t fs).1 with
    | some w => left; rfl
    | none =>
      right
      cases h with
      | head hmem =>
        have := scanFields_found_of_mem t fs _ hmem
        rw [hs] at this
        simp at this
      | inObj hmem hocc =>
        exact ⟨_, scanFields_enq_of_mem t fs _ _ hs hmem (occursKey_isContainer _ _ hocc),
          hocc⟩
  · intro h
    rcases h with h | ⟨x, hx, hocc⟩
    · cases hs : (scanFields t fs).1 with
      | none => rw [hs] at h; simp at h
      | some w => exact .head (scanFields_found_mem t fs w hs)
    · obtain ⟨k, hk⟩ := scanFields_enq_mem t fs x hx
      exact .inObj hk hocc

theorem occursKey_arr_iff (t : String) (xs : List JVal) :
    OccursKey t (.arr xs) ↔ ∃ x ∈ scanList xs, OccursKey t x := by
  constructor
  · intro h
    cases h with
    | inArr hmem hocc =>
      exact ⟨_, List.mem_filter.mpr ⟨hmem, occursKey_isContainer _ _ hocc⟩, hocc⟩
  · rintro ⟨x, hx, hocc⟩
    exact .inArr (List.mem_filter.mp hx).1 hocc

theorem occursKey_scalar_false (t : String) (v : JVal) (hc : isContainer v = false) :
    ¬ OccursKey t v := by
  intro h
  rw [occursKey_isContainer t v h] at hc
  simp at hc

theorem updFound_isSome (s f : Option JVal) :
    (updFound s f).isSome = (s.isSome || f.isSome) := by
  cases s <;> cases f <;> rfl

theorem bfs_complete (t : String) : ∀ fuel (found : Option JVal) (q : List JVal)
    (res : Option JVal), bfsFind t fuel found q = some res →
    (res.isSome = true ↔ found.isSome = true ∨ ∃ x ∈ q, OccursKey t x) := by
  intro fuel
  induction fuel with
  | zero => intro found q res h; simp [bfsFind] at h
  | succ fuel ih =>
    intro found q res h
    match q with
    | [] =>
      simp only [bfsFind, Option.some.injEq] at h
      subst h
      simp
    | cur :: rest =>
      match cur with
      | .obj fs =>
        simp only [bfsFind] at h
        rw [ih _ _ _ h, updFound_isSome]
        simp only [List.mem_append, List.mem_cons, occursKey_obj_iff]
        constructor
        · rintro (hh | ⟨x, hx | hx, hocc⟩)
          · rcases Bool.or_eq_true_iff.mp hh with h1 | h1
            · exact .inr ⟨.obj fs, .inl rfl, (occursKey_obj_iff t fs).mpr (.inl h1)⟩
            · exact .inl h1
          · exact .inr ⟨x, .inr hx, hocc⟩
          · exact .inr ⟨.obj fs, .inl rfl, (occursKey_obj_iff t fs).mpr (.inr ⟨x, hx, hocc⟩)⟩
        · rintro (hh | ⟨x, hx | hx, hocc⟩)
          · exact .inl (by simp [hh])
          · subst hx
            rcases (occursKey_obj_iff t fs).mp hocc with h1 | ⟨y, hy, hyo⟩
            · exact .inl (by simp [h1])
            · exact .inr ⟨y, .inr hy, hyo⟩
          · exact .inr ⟨x, .inl hx, hocc⟩
      | .arr xs =>
        simp only [bfsFind] at h
        rw [ih _ _ _ h]
        simp only [List.mem_append, List.mem_cons, occursKey_arr_iff]
        constructor
        · rintro (hh | ⟨x, hx | hx, hocc⟩)
          · exact .inl hh
          · exact .inr ⟨x, .inr hx, hocc⟩
          · exact .inr ⟨.arr xs, .inl rfl, (occursKey_arr_iff t xs).mpr ⟨x, hx, hocc⟩⟩
        · rintro (hh | ⟨x, hx | hx, hocc⟩)
          · exact .inl hh
          · subst hx
            obtain ⟨y, hy, hyo⟩ := (occursKey_arr_iff t xs).mp hocc
            exact .inr ⟨y, .inr hy, hyo⟩
          · exact .inr ⟨x, .inl hx, hocc⟩
      | .str s =>
        simp only [bfsFind] at h
        rw [ih _ _ _ h]
        simp only [List.mem_cons]
        constructor
        · rintro (hh | ⟨x, hx, hocc⟩)
          · exact .inl hh
          · exact .inr ⟨x, .inr hx, hocc⟩
        · rintro (hh | ⟨x, hx | hx, hocc⟩)
          · exact .inl hh
          · subst hx; exact absurd hocc (occursKey_scalar_false t _ rfl)
          · exact .inr ⟨x, hx, hocc⟩
      | .num n =>
        simp only [bfsFind] at h
        rw [ih _ _ _ h]
        simp only [List.mem_cons]
        constructor
        · rintro (hh | ⟨x, hx, hocc⟩)
          · exact .inl hh
          · exact .inr ⟨x, .inr hx, hocc⟩
        · rintro (hh | ⟨x, hx | hx, hocc⟩)
          · exact .inl hh
          · subst hx; exact absurd hocc (occursKey_scalar_false t _ rfl)
          · exact .inr ⟨x, hx, hocc⟩
      | .bool b =>
        simp only [bfsFind] at h
        rw [ih _ _ _ h]
        simp only [List.mem_cons]
        constructor
        · rintro (hh | ⟨x, hx, hocc⟩)
          · exact .inl hh
          · exact .inr ⟨x, .inr hx, hocc⟩
        · rintro (hh | ⟨x, hx | hx, hocc⟩)
          · exact .inl hh
          · subst hx; exact absurd hocc (occursKey_scalar_false t _ rfl)
          · exact .inr ⟨x, hx, hocc⟩
      | .null =>
        simp only [bfsFind] at h
        rw [ih _ _ _ h]
        simp only [List.mem_cons]
        constructor
        · rintro (hh | ⟨x, hx, hocc⟩)
          · exact .inl hh
          · exact .inr ⟨x, .inr hx, hocc⟩
        · rintro (hh | ⟨x, hx | hx, hocc⟩)
          · exact .inl hh
          · subst hx; exact absurd hocc (occursKey_scalar_false t _ rfl)
          · exact .inr ⟨x, hx, hocc⟩

theorem bfs_sound (t : String) : ∀ fuel (found : Option JVal) (q : List JVal) (w : JVal),
    bfsFind t fuel found q = some (some w) →
    found = some w ∨ ∃ x ∈ q, OccursWith t w x := by
  intro fuel
  induction fuel with
  | zero => intro found q w h; simp [bfsFind] at h
  | succ fuel ih =>
    intro found q w h
    match q with
    | [] =>
      simp only [bfsFind, Option.some.injEq] at h
      exact .inl h
    | cur :: rest =>
      match cur with
      | .obj fs =>
        simp only [bfsFind] at h
        rcases ih _ _ _ h with hf | ⟨x, hx, hocc⟩
        · cases hs : (scanFields t fs).1 with
          | some u =>
            rw [hs] at hf
            simp only [updFound, Option.some.injEq] at hf
            exact .inr ⟨.obj fs, List.Mem.head _, .head (hf ▸ scanFields_found_mem t fs u hs)⟩
          | none =>
            rw [hs] at hf
            exact .inl hf
        · rcases List.mem_append.mp hx with hx2 | hx2
          · exact .inr ⟨x, List.Mem.tail _ hx2, hocc⟩
          · obtain ⟨k, hk⟩ := scanFields_enq_mem t fs x hx2
            exact .inr ⟨.obj fs, List.Mem.head _, .inObj hk hocc⟩
      | .arr xs =>
        simp only [bfsFind] at h
        rcases ih _ _ _ h with hf | ⟨x, hx, hocc⟩
        · exact .inl hf
        · rcases List.mem_append.mp hx with hx2 | hx2
          · exact .inr ⟨x, List.Mem.tail _ hx2, hocc⟩
          · exact .inr ⟨.arr xs, List.Mem.head _,
              .inArr (List.mem_filter.mp hx2).1 hocc⟩
      | .str s =>
        simp only [bfsFind] at h
        rcases ih _ _ _ h with hf | ⟨x, hx, hocc⟩
        · exact .inl hf
        · exact .inr ⟨x, List.Mem.tail _ hx, hocc⟩
      | .num n =>
        simp only [bfsFind] at h
        rcases ih _ _ _ h with hf | ⟨x, hx, hocc⟩
        · exact .inl hf
        · exact .inr ⟨x, List.Mem.tail _ hx, hocc⟩
      | .bool b =>
        simp only [bfsFind] at h
        rcases ih _ _ _ h with hf | ⟨x, hx, hocc⟩
        · exact .inl hf
        · exact .inr ⟨x, List.Mem.tail _ hx, hocc⟩
      | .null =>
        simp only [bfsFind] at h
        rcases ih _ _ _ h with hf | ⟨x, hx, hocc⟩
        · exact .inl hf
        · exact .inr ⟨x, List.Mem.tail _ hx, hocc⟩

/-- Claim C3, amended.  The generic key search does not return the
shallowest, left-most (breadth-first-first) occurrence: inside a mapping it
keeps overwriting `found` and prunes siblings after a match, so it returns
the value of the *last* match its pruned breadth-first traversal encounters.
What does hold of any completed search: it returns a value exactly when the
target key occurs somewhere in the structure, and any returned value is the
value of an actual occurrence of the target key. -/
theorem c3_amended (fuel : Nat) (v : JVal) (t : String) (res : Option JVal)
    (h : findKeyInDict fuel v t = some res) :
    (res.isSome = true ↔ OccursKey t v) ∧
      ∀ w, res = some w → OccursWith t w v := by
  constructor
  · rw [bfs_complete t fuel none [v] res h]
    simp
  · intro w hw
    subst hw
    rcases bfs_sound t fuel none [v] w h with hf | ⟨x, hx, hocc⟩
    · simp at hf
    · simp only [List.mem_singleton] at hx
      subst hx
      exact hocc

/-- Witness for C3 (amended): the completed search on `c3ex` returns the
value "X", which is indeed the value of an occurrence of the key. -/
theorem c3_witness : OccursWith "$ref" (JVal.str "X") c3ex :=
  (c3_amended 9 c3ex "$ref" (some (JVal.str "X")) rfl).2 (JVal.str "X") rfl

/-! ## Resolution lemmas -/

theorem pyGet_to_lookupField (d : JVal) (k : String) (v : JVal)
    (h : pyGet d k = some v) : ∃ fs, d = .obj fs ∧ lookupField fs k = some v := by
  match d with
  | .str s => simp [pyGet] at h
  | .num n => simp [pyGet] at h
  | .bool b => simp [pyGet] at h
  | .null => simp [pyGet] at h
  | .arr xs => simp [pyGet] at h
  | .obj fs =>
    refine ⟨fs, rfl, ?_⟩
    simp only [pyGet] at h
    cases hl : lookupField fs k with
    | none => rw [hl] at h; simp at h
    | some u =>
      rw [hl] at h
      cases u <;> simp_all

theorem getAt_cons_of_pyIndex (d u : JVal) (k : String) (ks : List String)
    (h : pyIndex d k = .ok u) : getAt d (k :: ks) = getAt u ks := by
  match d with
  | .str s => simp [pyIndex] at h
  | .num n => simp [pyIndex] at h
  | .bool b => simp [pyIndex] at h
  | .null => simp [pyIndex] at h
  | .arr xs => simp [pyIndex] at h
  | .obj fs =>
    simp only [pyIndex] at h
    cases hl : lookupField fs k with
    | none => rw [hl] at h; simp at h
    | some w =>
      rw [hl] at h
      simp only [Except.ok.injEq] at h
      subst h
      simp [getAt, hl]

theorem ok_bind {A B : Type} (a : A) (f : A → Except PErr B) :
    (Except.ok a >>= f) = f a := rfl

theorem error_bind {A B : Type} (e : PErr) (f : A → Except PErr B) :
    ((Except.error e : Except PErr A) >>= f) = Except.error e := rfl

theorem bind_ok_inv {A B : Type} {e : Except PErr A} {f : A → Except PErr B} {b : B}
    (h : (e >>= f) = Except.ok b) : ∃ a, e = Except.ok a ∧ f a = Except.ok b := by
  cases e with
  | error err =>
    rw [error_bind] at h
    exact absurd h (by simp)
  | ok a =>
    rw [ok_bind] at h
    exact ⟨a, rfl, h⟩

theorem refLookupElse_getAt (doc loc : JVal) (parts : List String)
    (name part0 : String) (s : JVal) (path : List String)
    (hpi : pyIndex doc part0 = .ok loc)
    (h : refLookupElse loc parts name part0 = .ok (s, path)) :
    getAt doc path = some s := by
  unfold refLookupElse at h
  split at h
  case h_2 => simp at h
  case h_1 =>
    rename_i part1 h1
    cases h2 : pyIndex loc part1 with
    | error e => rw [h2, error_bind] at h; simp at h
    | ok loc2 =>
      rw [h2, ok_bind] at h
      cases h3 : pyIndex loc2 name with
      | error e => rw [h3, error_bind] at h; simp at h
      | ok s2 =>
        rw [h3, ok_bind] at h
        simp only [Except.ok.injEq, Prod.mk.injEq] at h
        obtain ⟨hs, hp⟩ := h
        subst hs
        subst hp
        rw [getAt_cons_of_pyIndex doc loc part0 _ hpi,
          getAt_cons_of_pyIndex loc loc2 part1 _ h2,
          getAt_cons_of_pyIndex loc2 s2 name _ h3]
        rfl

theorem refLookup_getAt (doc : JVal) (parts : List String) (s : JVal) (path : List String)
    (h : refLookup doc parts = .ok (s, path)) : getAt doc path = some s := by
  unfold refLookup at h
  split at h
  case h_2 => simp at h
  case h_1 =>
    rename_i name part0 hl hh
    cases hpi : pyIndex doc part0 with
    | error e => rw [hpi, error_bind] at h; simp at h
    | ok loc =>
      rw [hpi, ok_bind] at h
      split at h
      case h_1 =>
        rename_i v hg
        split at h
        · simp only [Except.ok.injEq, Prod.mk.injEq] at h
          obtain ⟨hs, hp⟩ := h
          subst hs
          subst hp
          obtain ⟨fs2, hd2, hlf⟩ := pyGet_to_lookupField loc name _ hg
          rw [getAt_cons_of_pyIndex doc loc part0 _ hpi]
          subst hd2
          simp [getAt, hlf]
        · exact refLookupElse_getAt doc loc parts name part0 s path hpi h
      case h_2 =>
        exact refLookupElse_getAt doc loc parts name part0 s path hpi h

theorem parseProps_skip (fuel : Nat) : ∀ (pp : List String) (doc : JVal)
    (pfs : List (String × JVal)),
    (∀ kv ∈ pfs, pyGet kv.2 "$ref" = none ∧ jEqStr (pyGet kv.2 "type") "array" = false) →
    pfs.length ≤ fuel →
    parseProps fuel pp doc pfs = .ok (pfs, doc) := by
  induction fuel with
  | zero =>
    intro pp doc pfs hskip hlen
    match pfs with
    | [] => rfl
    | _ :: _ => simp at hlen
  | succ fuel ih =>
    intro pp doc pfs hskip hlen
    match pfs with
    | [] => rfl
    | (k, v) :: rest =>
      have h1 := hskip (k, v) (List.Mem.head _)
      have h2 : ∀ kv ∈ rest, pyGet kv.2 "$ref" = none ∧
          jEqStr (pyGet kv.2 "type") "array" = false :=
        fun kv hkv => hskip kv (List.Mem.tail _ hkv)
      have h3 : rest.length ≤ fuel := by
        simp only [List.length_cons] at hlen
        omega
      simp only [parseProps, h1.1, h1.2, Bool.false_eq_true, if_false]
      rw [ih pp doc rest h2 h3]
      rfl

/-- Core behaviour of the resolver on a definition that has `properties` but
nothing to rewrite: denylisted keys are stripped from the top level only, and
every property value that holds no direct truthy pointer and is not
array-typed passes through verbatim — whatever is nested inside it (pointers,
denylisted keys) survives into the output. -/
theorem parseRef_props_passthrough (fuel : Nat) (doc : JVal) (refPath : String)
    (fs props : List (String × JVal)) (path : List String)
    (hlook : refLookup doc ((splitSlash refPath).drop 1) = .ok (.obj fs, path))
    (hprops : lookupField (eraseField fs "xml") "properties" = some (.obj props))
    (hskip : ∀ kv ∈ props, pyGet kv.2 "$ref" = none ∧ jEqStr (pyGet kv.2 "type") "array" = false)
    (hfuel : props.length ≤ fuel) :
    parseRef (fuel + 1) doc refPath =
      .ok (pySet (.obj (eraseField fs "xml")) "properties" (.obj props),
           setAt doc path (pySet (.obj (eraseField fs "xml")) "properties" (.obj props))) := by
  have hpg : pyGet (.obj (eraseField fs "xml")) "properties" = some (.obj props) := by
    simp [pyGet, hprops]
  have hdel : deleteUselessKeysTop (JVal.obj fs) = JVal.obj (eraseField fs "xml") := rfl
  simp only [parseRef]
  rw [hlook]
  simp only [ok_bind, hdel, hpg]
  rw [parseProps_skip fuel (path ++ ["properties"])
    (setAt doc path (JVal.obj (eraseField fs "xml"))) props hskip hfuel, ok_bind]
  rw [setAt_setAt]

/-- Claim C1, amended.  The no-pointer guarantee does not hold at depth: the
resolver does not descend into inline object property bodies.  For a
definition with `properties` and no top-level denylisted key, when no
property directly holds a truthy pointer and none is array-typed, resolution
returns the stored definition verbatim (and leaves the Document untouched) —
including any pointer keys nested inside the properties' own sub-schemas,
as the counterexample exhibits. -/
theorem c1_amended (fuel : Nat) (doc : JVal) (refPath : String)
    (fs props : List (String × JVal)) (path : List String)
    (hlook : refLookup doc ((splitSlash refPath).drop 1) = .ok (.obj fs, path))
    (hxml : lookupField fs "xml" = none)
    (hprops : lookupField fs "properties" = some (.obj props))
    (hskip : ∀ kv ∈ props, pyGet kv.2 "$ref" = none ∧ jEqStr (pyGet kv.2 "type") "array" = false)
    (hfuel : props.length ≤ fuel) :
    parseRef (fuel + 1) doc refPath = .ok (.obj fs, doc) := by
  have he : eraseField fs "xml" = fs := eraseField_of_lookup_none fs "xml" hxml
  have h1 := parseRef_props_passthrough fuel doc refPath fs props path hlook
    (by rw [he]; exact hprops) hskip hfuel
  rw [he] at h1
  have hset : pySet (JVal.obj fs) "properties" (JVal.obj props) = JVal.obj fs := by
    simp only [pySet, hprops, Option.isSome_some, if_true]
    rw [setField_self fs "properties" (JVal.obj props) hprops]
  rw [hset] at h1
  rw [setAt_getAt_self path doc (JVal.obj fs)
    (refLookup_getAt doc _ _ path hlook)] at h1
  exact h1

/-- Witness for C1 (amended): the resolver applied to `exDoc1` returns the
stored `Pet` verbatim — including, as `c1_counterexample` shows, the pointer
nested inside the inline object property. -/
theorem c1_witness : parseRef 3 exDoc1 "#/definitions/Pet" = .ok (exPet1, exDoc1) :=
  c1_amended 2 exDoc1 "#/definitions/Pet" _ _ ["definitions", "Pet"] rfl rfl rfl
    (by intro kv hkv; simp only [List.mem_singleton] at hkv; subst hkv; exact ⟨rfl, rfl⟩)
    (by decide)

/-- Claim C2, amended.  The denylist is applied only to the top level of each
immediately resolved node (as §4.1 of the specification itself puts it), not
at every depth: property values pass through verbatim, so a denylisted key
nested inside an embedded schema survives into the output catalog, as the
counterexample exhibits. -/
theorem c2_amended (fuel : Nat) (doc : JVal) (refPath : String)
    (fs props : List (String × JVal)) (path : List String)
    (hlook : refLookup doc ((splitSlash refPath).drop 1) = .ok (.obj fs, path))
    (hprops : lookupField (eraseField fs "xml") "properties" = some (.obj props))
    (hskip : ∀ kv ∈ props, pyGet kv.2 "$ref" = none ∧ jEqStr (pyGet kv.2 "type") "array" = false)
    (hfuel : props.length ≤ fuel) :
    parseRef (fuel + 1) doc refPath =
      .ok (pySet (.obj (eraseField fs "xml")) "properties" (.obj props),
           setAt doc path (pySet (.obj (eraseField fs "xml")) "properties" (.obj props))) :=
  parseRef_props_passthrough fuel doc refPath fs props path hlook hprops hskip hfuel

/-- A definition carrying the denylisted `xml` key both at its top level and
nested inside a property value. -/
def exDocW2 : JVal :=
  .obj [("definitions", .obj [
    ("Pet", .obj [
      ("xml", .obj [("a", .str "b")]),
      ("type", .str "object"),
      ("properties", .obj [
        ("name", .obj [
          ("type", .str "string"),
          ("xml", .obj [("c", .bool true)])])])])])]

/-- `Pet` of `exDocW2` after resolution: top-level `xml` stripped, the nested
one kept. -/
def exPetW2 : JVal :=
  .obj [("type", .str "object"),
        ("properties", .obj [("name", .obj [("type", .str "string"),
                                            ("xml", .obj [("c", .bool true)])])])]

/-- `exDocW2` after the resolution (the top-level deletion is written through
to the document). -/
def exDocW2After : JVal := .obj [("definitions", .obj [("Pet", exPetW2)])]

/-- Witness for C2 (amended): on `exDocW2` the resolver strips the top-level
`xml` but returns the property value verbatim, nested `xml` included. -/
theorem c2_witness : parseRef 9 exDocW2 "#/definitions/Pet" = .ok (exPetW2, exDocW2After) :=
  c2_amended 8 exDocW2 "#/definitions/Pet" _ _ ["definitions", "Pet"] rfl rfl
    (by intro kv hkv; simp only [List.mem_singleton] at hkv; subst hkv; exact ⟨rfl, rfl⟩)
    (by decide)

/-- Claim C4, amended.  Resolution is side-effect-free and idempotent only
when the resolved subtree needs no rewriting: if the definition has no
top-level denylisted key, no `properties`, and the completed key search finds
no pointer inside it, then resolution returns the stored subtree and the
Document unchanged — and therefore resolving the same pointer twice (even
threading the returned document through) yields the same structurally equal
schema.  In general resolution mutates the Document in place (it deletes
denylisted keys and writes substituted subtrees back), as the counterexample
exhibits. -/
theorem c4_amended (fuel : Nat) (doc : JVal) (refPath : String)
    (fs : List (String × JVal)) (path : List String)
    (hlook : refLookup doc ((splitSlash refPath).drop 1) = .ok (.obj fs, path))
    (hxml : lookupField fs "xml" = none)
    (hpr : lookupField fs "properties" = none)
    (hfind : findKeyInDict fuel (.obj fs) "$ref" = some none) :
    parseRef (fuel + 1) doc refPath = .ok (.obj fs, doc) ∧
      (do
        let r ← parseRef (fuel + 1) doc refPath
        parseRef (fuel + 1) r.2 refPath) = .ok (.obj fs, doc) := by
  have he : deleteUselessKeysTop (JVal.obj fs) = JVal.obj fs := by
    have h0 : deleteUselessKeysTop (JVal.obj fs) = JVal.obj (eraseField fs "xml") := rfl
    rw [h0, eraseField_of_lookup_none fs "xml" hxml]
  have hpg : pyGet (JVal.obj fs) "properties" = none := by
    simp [pyGet, hpr]
  have hsd : setAt doc path (JVal.obj fs) = doc :=
    setAt_getAt_self path doc (JVal.obj fs) (refLookup_getAt doc _ _ path hlook)
  have hfe : findKeyE fuel (JVal.obj fs) "$ref" = .ok none := by
    simp [findKeyE, hfind]
  have h1 : parseRef (fuel + 1) doc refPath = .ok (.obj fs, doc) := by
    simp only [parseRef]
    rw [hlook]
    simp only [ok_bind, he, hpg, hsd, hfe]
    by_cases hb : jEqStr (pyGet (JVal.obj fs) "type") "array" = true
    · simp [hb, hfe]
    · simp [hb]
  refine ⟨h1, ?_⟩
  rw [h1, ok_bind, h1]

/-- Witness for C4 (amended): resolving `#/definitions/T` of `exDoc7` once
and twice gives the same schema and leaves the document unchanged. -/
theorem c4_witness :
    parseRef 4 exDoc7 "#/definitions/T" = .ok (.obj [("type", JVal.str "string")], exDoc7) ∧
      (do
        let r ← parseRef 4 exDoc7 "#/definitions/T"
        parseRef 4 r.2 "#/definitions/T") =
        .ok (.obj [("type", JVal.str "string")], exDoc7) :=
  c4_amended 3 exDoc7 "#/definitions/T" _ ["definitions", "T"] rfl rfl rfl rfl

/-- Claim C5, amended.  Only an absent (or null) top-level `paths` entry is a
fatal error (`endpoints is not None` is all the assertion checks); an empty
`paths` mapping passes the assertion and the parse succeeds with an empty
catalog. -/
theorem c5_amended (fuel : Nat) (doc : JVal) (base : String) :
    (pyGet doc "paths" = none →
      parseSwagger fuel doc base = .error (.assertError "0 endpoints! WTF???")) ∧
      (pyGet doc "paths" = some (.obj []) →
        parseSwagger fuel doc base = .ok ([], doc)) := by
  constructor
  · intro h
    simp [parseSwagger, h]
  · intro h
    simp [parseSwagger, h, parseEndpoints, parseEndpointsLoop]

/-- Witness for C5 (amended): a document without `paths` fails the assertion;
a document with `paths = {}` parses into the empty catalog. -/
theorem c5_witness :
    parseSwagger 7 (.obj [("a", .null)]) "u" = .error (.assertError "0 endpoints! WTF???") ∧
      parseSwagger 7 (.obj [("paths", .obj [])]) "u" = .ok ([], .obj [("paths", .obj [])]) :=
  ⟨(c5_amended 7 (.obj [("a", .null)]) "u").1 rfl,
   (c5_amended 7 (.obj [("paths", .obj [])]) "u").2 rfl⟩

/-- Claim C7: request-body parsing asserts on a missing pointer and attaches
the pointer's resolution otherwise.  If the completed breadth-first search
finds no pointer key anywhere in the request-body object (or finds a null
one, which Python's `is not None` also rejects), parsing fails with the
source's assertion error and no RequestBody is produced; and whenever parsing
succeeds, the produced body schema is exactly the resolution of the found
pointer. -/
theorem c7_theorem (fuel : Nat) (doc body : JVal) (fnd : Option JVal)
    (hf : findKeyInDict fuel body "$ref" = some fnd) :
    (nonNull fnd = none →
      parseRequestBody fuel doc body = .error (.assertError "Update parser))")) ∧
      (∀ rv, nonNull fnd = some rv → ∀ rb d2,
        parseRequestBody fuel doc body = .ok (rb, d2) →
        ∃ s, asStr rv = .ok s ∧ parseRef fuel doc s = .ok (rb.data_schema, d2)) := by
  have hfe : findKeyE fuel body "$ref" = .ok fnd := by simp [findKeyE, hf]
  constructor
  · intro h
    simp [parseRequestBody, hfe, ok_bind, h]
  · intro rv hrv rb d2 h
    simp only [parseRequestBody, hfe, ok_bind, hrv] at h
    split at h
    case h_1 =>
      obtain ⟨s, has, h2⟩ := bind_ok_inv h
      obtain ⟨p, hpr, h3⟩ := bind_ok_inv h2
      simp only [Except.ok.injEq, Prod.mk.injEq] at h3
      obtain ⟨hrb, hd⟩ := h3
      subst hrb
      subst hd
      exact ⟨s, has, hpr⟩
    case h_2 =>
      split at h
      case h_1 =>
        obtain ⟨s, has, h2⟩ := bind_ok_inv h
        obtain ⟨p, hpr, h3⟩ := bind_ok_inv h2
        simp only [Except.ok.injEq, Prod.mk.injEq] at h3
        obtain ⟨hrb, hd⟩ := h3
        subst hrb
        subst hd
        exact ⟨s, has, hpr⟩
      case h_2 =>
        rw [error_bind] at h
        simp at h

/-- The request body parsed from `exDoc7`. -/
def exBody7 : RequestBody :=
  { description := none, data_schema := .obj [("type", .str "string")],
    required := .bool false }

/-- Witness for C7: a body without any pointer hits the assertion; for a body
whose pointer resolves against `exDoc7`, the attached schema is the
resolution of that pointer. -/
theorem c7_witness :
    parseRequestBody 9 (.obj []) (.obj [("a", .str "b")]) =
        .error (.assertError "Update parser))") ∧
      parseRef 9 exDoc7 "#/definitions/T" = .ok (exBody7.data_schema, exDoc7) := by
  refine ⟨(c7_theorem 9 (.obj []) (.obj [("a", .str "b")]) none rfl).1 rfl, ?_⟩
  obtain ⟨s, has, hpr⟩ := (c7_theorem 9 exDoc7
    (.obj [("schema", .obj [("$ref", .str "#/definitions/T")])])
    (some (.str "#/definitions/T")) rfl).2 (.str "#/definitions/T") rfl exBody7 exDoc7 rfl
  have hs : s = "#/definitions/T" := by
    have h := has
    simp [asStr] at h
    exact h.symm
  subst hs
  exact hpr

/-- Claim C9: every Method carries one of the 8 enumerated operations, and an
unrecognized verb name makes constructing the Method fail.  Whenever
`__parse_method` produces a Method, its verb is the enumerated operation the
verb string maps to (hence one of the 8 members of `Operation`); and for a
non-deprecated entry (here one with no parameters, responses or request body,
so the three sub-parses trivially succeed), an unrecognized verb string makes
the whole entry fail with the `Operation[method]` KeyError. -/
theorem c9_theorem (fuel : Nat) (doc : JVal) (base verb mUrl : String) (mdata : JVal) :
    (∀ m d2, parseMethod fuel doc base verb mdata mUrl = .ok (some m, d2) →
      operationOfName verb = some m.type) ∧
      (truthyOpt (pyGet mdata "deprecated") = false →
        pyGet mdata "parameters" = none → pyGet mdata "responses" = none →
        pyGet mdata "requestBody" = none → operationOfName verb = none →
        parseMethod fuel doc base verb mdata mUrl = .error (.keyError verb)) := by
  constructor
  · intro m d2 h
    unfold parseMethod at h
    by_cases hdep : truthyOpt (pyGet mdata "deprecated") = true
    · rw [if_pos hdep] at h
      simp at h
    · rw [if_neg hdep] at h
      obtain ⟨⟨params, dp⟩, he1, h2⟩ := bind_ok_inv h
      obtain ⟨⟨responses, dr⟩, he2, h3⟩ := bind_ok_inv h2
      obtain ⟨⟨requestBody, db⟩, he3, h4⟩ := bind_ok_inv h3
      obtain ⟨op, hop, h5⟩ := bind_ok_inv h4
      cases hov : operationOfName verb with
      | none =>
        rw [operationLookup, hov] at hop
        simp at hop
      | some o =>
        rw [operationLookup, hov] at hop
        simp only [Except.ok.injEq] at hop
        subst hop
        simp only [Except.ok.injEq, Prod.mk.injEq, Option.some.injEq] at h5
        obtain ⟨hm, hd⟩ := h5
        rw [← hm]
  · intro h0 h1 h2 h3 h4
    simp [parseMethod, h0, h1, h2, h3, h4, ok_bind, error_bind, parseMethodParams,
      parseMethodResponses, parseMethodBody, operationLookup]

/-- The method parsed from a bare `get` operation. -/
def exMethod9 : Method :=
  { url := "B/p", type := .get, summary := none, description := none,
    input_formats := .arr [], output_formats := .arr [],
    responses := none, parameters := none, request_body := none }

/-- Witness for C9: a produced Method's verb is the mapped enumerated
operation, and the unrecognized verb string "foo" fails the entry. -/
theorem c9_witness :
    operationOfName "get" = some exMethod9.type ∧
      parseMethod 5 (.obj []) "B" "foo" (.obj []) "/p" = .error (.keyError "foo") :=
  ⟨(c9_theorem 5 (.obj []) "B" "get" "/p" (.obj [])).1 exMethod9 (.obj []) rfl,
   (c9_theorem 5 (.obj []) "B" "foo" "/p" (.obj [])).2 rfl rfl rfl rfl rfl⟩

/-- The Response produced for a status-code entry in which no pointer and no
`type` key was found: both fields of its return schema are absent. -/
def emptyReturnResponse (code : String) (rdata : JVal) : Response :=
  { code := code, description := pyGet rdata "description",
    return_schema := some { type := none, items := none } }

/-- Claim C10: a response entry in which the completed breadth-first search
finds neither a pointer key nor a `type` key does not make response parsing
fail — unlike request bodies, there is no assertion here.  The entry
contributes a Response whose return schema has both `type` and `items`
absent, and parsing simply continues with the remaining entries. -/
theorem c10_theorem (fuel : Nat) (doc : JVal) (code : String) (rdata : JVal)
    (rest : List (String × JVal))
    (h1 : findKeyInDict fuel rdata "$ref" = some none)
    (h2 : findKeyInDict fuel rdata "type" = some none) :
    parseResponsesList fuel doc ((code, rdata) :: rest) =
      Except.map (fun p => (emptyReturnResponse code rdata :: p.1, p.2))
        (parseResponsesList fuel doc rest) := by
  have hf1 : findKeyE fuel rdata "$ref" = .ok none := by simp [findKeyE, h1]
  have hf2 : findKeyE fuel rdata "type" = .ok none := by simp [findKeyE, h2]
  cases hrec : parseResponsesList fuel doc rest with
  | error e =>
    simp [parseResponsesList, hf1, hf2, ok_bind, error_bind, hrec, Except.map,
      nonNull, jEqStr, emptyReturnResponse]
  | ok p =>
    simp [parseResponsesList, hf1, hf2, ok_bind, error_bind, hrec, Except.map,
      nonNull, jEqStr, emptyReturnResponse]

/-- Witness for C10: a lone `200` entry carrying only a description parses
into a Response with an all-absent return schema, with no error. -/
theorem c10_witness :
    parseResponsesList 9 (.obj []) [("200", .obj [("description", .str "ok")])] =
      .ok ([emptyReturnResponse "200" (.obj [("description", .str "ok")])], .obj []) :=
  (c10_theorem 9 (.obj []) "200" (.obj [("description", .str "ok")]) [] rfl rfl).trans rfl
